import Mathlib

/-!
Shallow embedding of the gmail-to-sheets sync pipeline.

Sources embedded:
- `src/main.py`: `load_state`, `save_state`, `should_skip_subject`, `main`
  (the orchestrator: config check, state load, dedup, fetch+filter loop,
  batch append, mark-as-read, state save).
- `src/email_parser.py`: `_extract_body_from_payload`, `_extract_header`,
  `parse_message`.
- `src/config.py`: the configuration record shape.

External collaborators (Gmail API transport, Sheets API transport, OAuth,
base64 decoding, html2text) are modelled as abstract parameters: the `Env`
record carries the outcome of each external call of one run, and the e-mail
body extractor is parameterised by the decode and HTML-to-text functions.
Python `str.lower` / `str.strip` / `str.startswith` / `in` are modelled by
structural functions over `List Char` so that everything kernel-evaluates.
-/

namespace GmailSync

/-- Python list/str prefix test: `hasPre n h` is true iff `n` is a prefix of `h`. -/
def hasPre : List Char → List Char → Bool
  | [], _ => true
  | _ :: _, [] => false
  | n :: ns, h :: hs => n == h && hasPre ns hs

/-- Python substring scan: `hasSub n h` is true iff `n` occurs contiguously in `h`. -/
def hasSub : List Char → List Char → Bool
  | need, [] => need.isEmpty
  | need, h :: hs => hasPre need (h :: hs) || hasSub need hs

/-- Python `needle in hay` on strings (substring containment). -/
def strIn (needle hay : String) : Bool := hasSub needle.data hay.data

/-- Python `s.lower()` (per-character case folding). -/
def lowerStr (s : String) : String := ⟨s.data.map Char.toLower⟩

/-- Python `s.strip()`: drop whitespace from both ends. -/
def stripStr (s : String) : String :=
  ⟨((s.data.dropWhile Char.isWhitespace).reverse.dropWhile Char.isWhitespace).reverse⟩

/-- Python `s.startswith(p)`: `startsWithStr p s` is true iff `p` is a prefix of `s`. -/
def startsWithStr (p s : String) : Bool := hasPre p.data s.data

/-- The configuration record of `config.py` (the fields the pipeline reads). -/
structure Config where
  SPREADSHEET_ID : String
  SUBJECT_FILTER : String
  STATE_PERSISTENCE_MODE : String
deriving DecidableEq

/-- The sync state persisted in `state.json`: `processed_ids` (a list whose
membership is what matters) and `last_run` (`None` before the first run). -/
structure SyncState where
  processed_ids : List String
  last_run : Option String
deriving DecidableEq

/-- The dict returned by `parse_message` (email_parser.py line 103-109).
`fromAddr` stands for the Python key `"from"`. -/
structure ParsedMsg where
  id : String
  fromAddr : String
  subject : String
  date : String
  body : String
deriving DecidableEq

/-- One sheet row: the 4-element list built at main.py lines 116-121. -/
abbrev Row := List String

/-- Outcome of every external call made during one run of `main`:
whether authentication succeeds, what `fetch_unread_message_ids` returns
(`none` models the raising path), what `get_message` + `parse_message`
yields per id (`none` models a raised fetch/parse error), whether
`append_rows` succeeds after its retry budget, whether `mark_as_read`
succeeds per id, and the timestamp `datetime.utcnow().isoformat()`. -/
structure Env where
  authOk : Bool
  listUnread : Option (List String)
  getMsg : String → Option ParsedMsg
  appendOk : Bool
  markOk : String → Bool
  now : String

/-- Observable effects of one run of `main` (main.py lines 62-155):
the returned exit code, whether the `STATE_PERSISTENCE_MODE` warning of
lines 71-75 was logged, whether authentication was attempted, the batch
passed to `append_rows` paired with its `ids_to_mark_read` (or `none` when
`append_rows` was never called), the ids for which `mark_as_read` was
called, the ids whose `mark_as_read` call failed (the logged errors of
line 138), and the state passed to `save_state` (`none` when `save_state`
was never reached). -/
structure RunOutcome where
  exitCode : Nat
  warnedSheetMode : Bool
  authAttempted : Bool
  batch : Option (List (String × Row))
  markCalls : List String
  markFailures : List String
  saved : Option SyncState
deriving DecidableEq

/-- main.py lines 56-59: skip iff a filter is set and its lowered form does
not occur in the lowered subject. -/
def should_skip_subject (cfg : Config) (subject : String) : Bool :=
  if cfg.SUBJECT_FILTER == "" then false
  else !(strIn (lowerStr cfg.SUBJECT_FILTER) (lowerStr subject))

/-- main.py lines 104-123: the fetch/parse/filter loop. It walks the
candidate ids in order; a failed fetch/parse (`none`) or a filtered-out
subject skips only that id; survivors contribute `(msg_id, row)` in order,
with the row `[from, subject, date, body]`. -/
def build_rows (cfg : Config) (env : Env) : List String → List (String × Row)
  | [] => []
  | msg_id :: rest =>
    match env.getMsg msg_id with
    | none => build_rows cfg env rest
    | some parsed =>
      if should_skip_subject cfg parsed.subject then
        build_rows cfg env rest
      else
        (msg_id, [parsed.fromAddr, parsed.subject, parsed.date, parsed.body])
          :: build_rows cfg env rest

/-- main.py line 64: the config validation condition. -/
def spreadsheet_id_invalid (cfg : Config) : Bool :=
  cfg.SPREADSHEET_ID == "" || strIn "REPLACE_WITH" cfg.SPREADSHEET_ID

/-- main.py line 93: unread ids minus already-processed ids, order kept. -/
def candidates (st : SyncState) (unread : List String) : List String :=
  unread.filter (fun mid => !(st.processed_ids.contains mid))

/-- main.py lines 92-155, after a successful unread fetch: dedup, build the
batch, then either finalize with zero rows, or append and (on success) mark
each id best-effort, extend `processed_ids`, and save. On append failure
the run returns 1 with nothing marked and nothing saved. -/
def run_core (cfg : Config) (st0 : SyncState) (env : Env) (warned : Bool)
    (unread : List String) : RunOutcome :=
  let pairs := build_rows cfg env (candidates st0 unread)
  if pairs = [] then
    { exitCode := 0, warnedSheetMode := warned, authAttempted := true,
      batch := none, markCalls := [], markFailures := [],
      saved := some { processed_ids := st0.processed_ids, last_run := some env.now } }
  else if env.appendOk then
    let ids := pairs.map Prod.fst
    { exitCode := 0, warnedSheetMode := warned, authAttempted := true,
      batch := some pairs, markCalls := ids,
      markFailures := ids.filter (fun i => !(env.markOk i)),
      saved := some
        { processed_ids :=
            st0.processed_ids ++ ids.filter (fun i => !(st0.processed_ids.contains i)),
          last_run := some env.now } }
  else
    { exitCode := 1, warnedSheetMode := warned, authAttempted := true,
      batch := some pairs, markCalls := [], markFailures := [], saved := none }

/-- main.py lines 62-155: the full orchestrator over an already-loaded
state. Config check first (return 1 before any side effect), then the
`STATE_PERSISTENCE_MODE == "sheet"` warning, then authentication, then the
unread fetch, then `run_core`. The `processed_ids.update` of line 140 is
modelled membership-faithfully by appending the not-yet-present ids. -/
def main (cfg : Config) (st0 : SyncState) (env : Env) : RunOutcome :=
  if spreadsheet_id_invalid cfg then
    { exitCode := 1, warnedSheetMode := false, authAttempted := false,
      batch := none, markCalls := [], markFailures := [], saved := none }
  else
    let warned := cfg.STATE_PERSISTENCE_MODE == "sheet"
    if env.authOk then
      match env.listUnread with
      | none =>
        { exitCode := 1, warnedSheetMode := warned, authAttempted := true,
          batch := none, markCalls := [], markFailures := [], saved := none }
      | some unread => run_core cfg st0 env warned unread
    else
      { exitCode := 1, warnedSheetMode := warned, authAttempted := true,
        batch := none, markCalls := [], markFailures := [], saved := none }

/-- A JSON value, as produced by `json.loads` on a state file. -/
inductive Json where
  | null : Json
  | jbool (b : Bool) : Json
  | jnum (n : Int) : Json
  | jstr (s : String) : Json
  | jarr (xs : List Json) : Json
  | jobj (fields : List (String × Json)) : Json

/-- What the state path can hold at the start of a run: no file, a file whose
text cannot be read or parsed as JSON, or a file holding parsed JSON. -/
inductive StateFile where
  | absent : StateFile
  | unreadable : StateFile
  | stored (j : Json) : StateFile

/-- The default dict `{"processed_ids": [], "last_run": None}` of main.py
lines 42 and 47, viewed as JSON. -/
def default_state_json : Json :=
  .jobj [("processed_ids", .jarr []), ("last_run", .null)]

/-- main.py lines 40-47: a missing file and an unreadable or non-JSON file
both give the fresh default state; otherwise the parsed JSON is returned.
Total: `load_state` never fails. -/
def load_state : StateFile → Json
  | .absent => default_state_json
  | .unreadable => default_state_json
  | .stored j => j

/-- Python `dict.get` over JSON object fields (first match). -/
def json_lookup : List (String × Json) → String → Option Json
  | [], _ => none
  | (k, v) :: rest, key => if k == key then some v else json_lookup rest key

/-- The strings held by a JSON array, in order. -/
def str_items : List Json → List String
  | [] => []
  | .jstr s :: rest => s :: str_items rest
  | _ :: rest => str_items rest

/-- How `main` reads the loaded dict: `state.get("processed_ids", [])`
(main.py line 92) and the `last_run` entry. A value of an unexpected shape
contributes the corresponding default. -/
def state_of_json : Json → SyncState
  | .jobj fields =>
    { processed_ids :=
        match json_lookup fields "processed_ids" with
        | some (.jarr xs) => str_items xs
        | _ => []
      last_run :=
        match json_lookup fields "last_run" with
        | some (.jstr s) => some s
        | _ => none }
  | _ => { processed_ids := [], last_run := none }

/-- The JSON written by `save_state` (main.py lines 50-52) for a run whose
in-memory state is `st`: the dict with keys `"processed_ids"` (a string
array, main.py lines 42/141) and `"last_run"` (a string once line 147 ran,
`null` in the never-run default). -/
def encode_state (st : SyncState) : Json :=
  .jobj [("processed_ids", .jarr (st.processed_ids.map Json.jstr)),
         ("last_run", match st.last_run with | some s => Json.jstr s | none => Json.null)]

/-- Top-level key names of a JSON object. -/
def json_keys : Json → List String
  | .jobj fields => fields.map Prod.fst
  | _ => []

/-- Is every element of the list a JSON string? -/
def all_strings : List Json → Bool
  | [] => true
  | .jstr _ :: rest => all_strings rest
  | _ => false

/-- Is the value a JSON array of strings? -/
def is_string_array : Json → Bool
  | .jarr xs => all_strings xs
  | _ => false

/-- Is the value JSON `null` or a JSON string? -/
def null_or_string : Json → Bool
  | .null => true
  | .jstr _ => true
  | _ => false

/-- The persisted-state shape: an object with exactly the keys
`"processed_ids"` (array of strings) and `"last_run"` (string or null),
in that order. -/
def state_json_shape (j : Json) : Bool :=
  match j with
  | .jobj [(k1, v1), (k2, v2)] =>
    k1 == "processed_ids" && k2 == "last_run" &&
      is_string_array v1 && null_or_string v2
  | _ => false

/-- A Gmail message payload tree (the `payload` dict of a full-format
message): a mime type, an optional base64url `body.data`, and a possibly
empty list of sub-parts. An empty `parts` list is falsy in Python, so it
behaves as a non-multipart payload. -/
inductive Payload where
  | node (mimeType : String) (data : Option String) (parts : List Payload)

/-- The `mimeType` field of a payload. -/
def Payload.mime : Payload → String
  | .node m _ _ => m

/-- email_parser.py lines 48-56: the classification loop over the already
extracted `(part_mime, content)` pairs; plain parts collect into `texts`,
otherwise html parts collect into `htmls`, both in source order. -/
def classify_parts : List (String × String) → List String × List String
  | [] => ([], [])
  | (m, c) :: rest =>
    let r := classify_parts rest
    if startsWithStr "text/plain" m then (c :: r.1, r.2)
    else if startsWithStr "text/html" m then (r.1, c :: r.2)
    else r

mutual

/-- email_parser.py lines 37-69 (`_extract_body_from_payload`),
parameterised by `decode` (`_decode_body`) and `h2t` (`_html_to_text`).
With sub-parts present: extract each part, classify by the part mime type,
then return the non-empty plain texts joined by a blank line if any plain
part exists, else the non-empty html contents each passed through `h2t`
and joined by a blank line, else the empty string. Without sub-parts:
decode-and-strip for `text/plain`, decode-then-`h2t` for `text/html`,
empty otherwise. -/
def extract_body_from_payload (decode : Option String → String)
    (h2t : String → String) : Payload → String
  | .node mime data parts =>
    match parts with
    | [] =>
      if startsWithStr "text/plain" mime then stripStr (decode data)
      else if startsWithStr "text/html" mime then h2t (decode data)
      else ""
    | p :: ps =>
      let tagged := extract_parts decode h2t (p :: ps)
      let texts := (classify_parts tagged).1
      let htmls := (classify_parts tagged).2
      if texts = [] then
        if htmls = [] then ""
        else String.intercalate "\n\n" ((htmls.filter (fun s => !(s == ""))).map h2t)
      else String.intercalate "\n\n" (texts.filter (fun s => !(s == "")))

/-- email_parser.py lines 50-52: pair each part's mime type with its
recursively extracted content, in order. -/
def extract_parts (decode : Option String → String) (h2t : String → String) :
    List Payload → List (String × String)
  | [] => []
  | p :: ps => (p.mime, extract_body_from_payload decode h2t p) :: extract_parts decode h2t ps

end

/-- A full-format Gmail message resource: id, header list (name/value
pairs), and payload tree. -/
structure GmailMessage where
  id : String
  headers : List (String × String)
  payload : Payload

/-- email_parser.py lines 72-76 (`_extract_header`): the value of the first
header whose name matches case-insensitively, else the empty string. -/
def extract_header (headers : List (String × String)) (name : String) : String :=
  match headers with
  | [] => ""
  | (n, v) :: rest => if lowerStr n == lowerStr name then v else extract_header rest name

/-- email_parser.py lines 79-110 (`parse_message`), parameterised by
`decode`, `h2t` and `parse_date` (`parsedate_to_datetime(...).isoformat()`,
where `none` models the raising path that yields the empty date). -/
def parse_message (decode : Option String → String) (h2t : String → String)
    (parse_date : String → Option String) (message : GmailMessage) : ParsedMsg :=
  { id := message.id
    fromAddr := extract_header message.headers "From"
    subject := extract_header message.headers "Subject"
    date := (parse_date (extract_header message.headers "Date")).getD ""
    body := extract_body_from_payload decode h2t message.payload }

/-- A candidate id is dropped by the fetch+filter loop: its fetch/parse
raised, or its parsed subject fails the configured filter. -/
def dropped (cfg : Config) (env : Env) (mid : String) : Prop :=
  env.getMsg mid = none ∨
    ∃ m, env.getMsg mid = some m ∧ should_skip_subject cfg m.subject = true

/-- The `texts` list of email_parser.py lines 48-54: contents of the
`text/plain`-tagged sub-parts, in source order. -/
def plain_texts (decode : Option String → String) (h2t : String → String)
    (parts : List Payload) : List String :=
  (classify_parts (extract_parts decode h2t parts)).1

/-- The `htmls` list of email_parser.py lines 49-55: contents of the
`text/html`-tagged sub-parts, in source order. -/
def html_texts (decode : Option String → String) (h2t : String → String)
    (parts : List Payload) : List String :=
  (classify_parts (extract_parts decode h2t parts)).2

/-! ### Concrete fixtures used by witnesses and scenario conjuncts -/

/-- A validly configured run with no subject filter. -/
def cfg_ok : Config :=
  { SPREADSHEET_ID := "sheet-1", SUBJECT_FILTER := "", STATE_PERSISTENCE_MODE := "local" }

/-- A configuration whose spreadsheet id still holds the placeholder. -/
def cfg_bad_id : Config :=
  { SPREADSHEET_ID := "xREPLACE_WITHy", SUBJECT_FILTER := "", STATE_PERSISTENCE_MODE := "local" }

/-- A configuration with an unimplemented persistence mode other than
`"sheet"`. -/
def cfg_mode_s3 : Config :=
  { SPREADSHEET_ID := "sheet-1", SUBJECT_FILTER := "", STATE_PERSISTENCE_MODE := "s3" }

/-- A configuration with subject filter `"Invoice"`. -/
def cfg_invoice : Config :=
  { SPREADSHEET_ID := "sheet-1", SUBJECT_FILTER := "Invoice", STATE_PERSISTENCE_MODE := "local" }

def msgA : ParsedMsg :=
  { id := "A", fromAddr := "a@x", subject := "SubA", date := "2024-01-01", body := "bodyA" }

def msgB : ParsedMsg :=
  { id := "B", fromAddr := "b@x", subject := "SubB", date := "2024-01-02", body := "bodyB" }

def msgC : ParsedMsg :=
  { id := "C", fromAddr := "c@x", subject := "SubC", date := "2024-01-03", body := "bodyC" }

def msgE : ParsedMsg :=
  { id := "E", fromAddr := "e@x", subject := "SubE", date := "2024-01-05", body := "bodyE" }

def msgLunch : ParsedMsg :=
  { id := "Y", fromAddr := "y@x", subject := "Lunch", date := "", body := "" }

/-- Environment for the scenario `unread = [A,B,C]`, everything succeeding. -/
def envABC : Env :=
  { authOk := true
    listUnread := some ["A", "B", "C"]
    getMsg := fun mid =>
      if mid == "A" then some msgA
      else if mid == "B" then some msgB
      else if mid == "C" then some msgC
      else none
    appendOk := true
    markOk := fun _ => true
    now := "T1" }

/-- Environment for the scenario `unread = [E]` with the append raising. -/
def env_append_fail : Env :=
  { authOk := true
    listUnread := some ["E"]
    getMsg := fun mid => if mid == "E" then some msgE else none
    appendOk := false
    markOk := fun _ => true
    now := "T2" }

/-- As `envABC`, but the `mark_as_read` call for `"A"` fails. -/
def env_mark_fail : Env :=
  { authOk := true
    listUnread := some ["A", "B", "C"]
    getMsg := fun mid =>
      if mid == "A" then some msgA
      else if mid == "B" then some msgB
      else if mid == "C" then some msgC
      else none
    appendOk := true
    markOk := fun i => !(i == "A")
    now := "T1" }

/-- Environment with a fetch error for `"X"` and a filtered-out subject for
`"Y"` (to be used with `cfg_invoice`). -/
def env_drop : Env :=
  { authOk := true
    listUnread := some ["X", "Y"]
    getMsg := fun mid => if mid == "Y" then some msgLunch else none
    appendOk := true
    markOk := fun _ => true
    now := "T3" }

def st_empty : SyncState := { processed_ids := [], last_run := none }

def stB : SyncState := { processed_ids := ["B"], last_run := none }

def stABC : SyncState := { processed_ids := ["B", "A", "C"], last_run := some "T1" }

def dec_getD : Option String → String := fun o => o.getD ""

def h2t_tag : String → String := fun s => String.append "T:" s

/-- A multipart payload holding one html part and two plain parts. -/
def payload_mixed : Payload :=
  .node "multipart/alternative" none
    [.node "text/html" (some "H1") [],
     .node "text/plain" (some "P1") [],
     .node "text/plain" (some "P2") []]

/-- A multipart payload holding only an html part. -/
def payload_html_only : Payload :=
  .node "multipart/mixed" none [.node "text/html" (some "H1") []]

def pd_none : String → Option String := fun _ => none

def message_mixed : GmailMessage :=
  { id := "M1"
    headers := [("FROM", "who@x"), ("Subject", "Hello"), ("Date", "D0")]
    payload := payload_mixed }

/-! ### Shared lemmas -/

theorem contains_iff_mem (l : List String) (x : String) :
    l.contains x = true ↔ x ∈ l := by
  simp [List.contains, List.elem_iff]

theorem contains_eq_false_iff (l : List String) (x : String) :
    l.contains x = false ↔ x ∉ l := by
  rw [← contains_iff_mem]
  cases l.contains x <;> simp

theorem build_rows_fst_mem {cfg : Config} {env : Env} :
    ∀ {l : List String} {mid : String},
      mid ∈ (build_rows cfg env l).map Prod.fst → mid ∈ l := by
  intro l
  induction l with
  | nil => intro mid h; simp [build_rows] at h
  | cons a t ih =>
    intro mid h
    rcases hma : env.getMsg a with _ | parsed
    · simp only [build_rows, hma] at h
      exact List.mem_cons_of_mem a (ih h)
    · by_cases hs : should_skip_subject cfg parsed.subject = true
      · simp only [build_rows, hma, hs, if_true] at h
        exact List.mem_cons_of_mem a (ih h)
      · simp only [build_rows, hma, Bool.not_eq_true] at hs
        simp only [build_rows, hma, hs, Bool.false_eq_true, if_false, List.map_cons,
          List.mem_cons] at h
        rcases h with h | h
        · exact h ▸ List.mem_cons_self a t
        · exact List.mem_cons_of_mem a (ih h)

theorem build_rows_fst_sublist (cfg : Config) (env : Env) :
    ∀ l : List String, ((build_rows cfg env l).map Prod.fst).Sublist l := by
  intro l
  induction l with
  | nil => simp [build_rows]
  | cons a t ih =>
    rcases hma : env.getMsg a with _ | parsed
    · simp only [build_rows, hma]
      exact ih.cons a
    · by_cases hs : should_skip_subject cfg parsed.subject = true
      · simp only [build_rows, hma, hs, if_true]
        exact ih.cons a
      · simp only [Bool.not_eq_true] at hs
        simp only [build_rows, hma, hs, Bool.false_eq_true, if_false, List.map_cons]
        exact ih.cons₂ a

theorem not_mem_batch_of_dropped {cfg : Config} {env : Env} {mid : String}
    (hd : dropped cfg env mid) :
    ∀ l : List String, mid ∉ (build_rows cfg env l).map Prod.fst := by
  intro l
  induction l with
  | nil => simp [build_rows]
  | cons a t ih =>
    rcases hma : env.getMsg a with _ | parsed
    · simpa only [build_rows, hma] using ih
    · by_cases hs : should_skip_subject cfg parsed.subject = true
      · simpa only [build_rows, hma, hs, if_true] using ih
      · simp only [Bool.not_eq_true] at hs
        simp only [build_rows, hma, hs, Bool.false_eq_true, if_false, List.map_cons,
          List.mem_cons, not_or]
        refine ⟨?_, ih⟩
        intro heq
        subst heq
        rcases hd with hnone | ⟨m, hm, hskip⟩
        · rw [hnone] at hma; cases hma
        · rw [hm] at hma
          cases hma
          rw [hskip] at hs
          cases hs

theorem dropped_of_not_mem_batch {cfg : Config} {env : Env} :
    ∀ {l : List String} {mid : String}, mid ∈ l →
      mid ∉ (build_rows cfg env l).map Prod.fst → dropped cfg env mid := by
  intro l
  induction l with
  | nil => intro mid h; cases h
  | cons a t ih =>
    intro mid hmem hnot
    rcases hma : env.getMsg a with _ | parsed
    · rcases List.mem_cons.mp hmem with heq | htail
      · subst heq; exact Or.inl hma
      · exact ih htail (by simpa only [build_rows, hma] using hnot)
    · by_cases hs : should_skip_subject cfg parsed.subject = true
      · rcases List.mem_cons.mp hmem with heq | htail
        · subst heq; exact Or.inr ⟨parsed, hma, hs⟩
        · exact ih htail (by simpa only [build_rows, hma, hs, if_true] using hnot)
      · simp only [Bool.not_eq_true] at hs
        simp only [build_rows, hma, hs, Bool.false_eq_true, if_false, List.map_cons,
          List.mem_cons, not_or] at hnot
        rcases List.mem_cons.mp hmem with heq | htail
        · exact absurd heq hnot.1
        · exact ih htail hnot.2

theorem build_rows_nil_of_dropped {cfg : Config} {env : Env} :
    ∀ {l : List String}, (∀ x ∈ l, dropped cfg env x) → build_rows cfg env l = [] := by
  intro l
  induction l with
  | nil => intro _; rfl
  | cons a t ih =>
    intro h
    have ha := h a (List.mem_cons_self a t)
    have ht := ih fun x hx => h x (List.mem_cons_of_mem a hx)
    rcases ha with hnone | ⟨m, hm, hskip⟩
    · simp only [build_rows, hnone, ht]
    · simp only [build_rows, hm, hskip, if_true, ht]

theorem build_rows_skip_none {cfg : Config} {env : Env} {mid : String}
    (h : env.getMsg mid = none) :
    ∀ l1 l2 : List String,
      build_rows cfg env (l1 ++ mid :: l2) = build_rows cfg env (l1 ++ l2) := by
  intro l1
  induction l1 with
  | nil => intro l2; simp only [List.nil_append, build_rows, h]
  | cons a t ih =>
    intro l2
    rcases hma : env.getMsg a with _ | parsed
    · simp only [List.cons_append, build_rows, hma]
      exact ih l2
    · by_cases hs : should_skip_subject cfg parsed.subject = true
      · simp only [List.cons_append, build_rows, hma, hs, if_true]
        exact ih l2
      · simp only [Bool.not_eq_true] at hs
        simp only [List.cons_append, build_rows, hma, hs, Bool.false_eq_true, if_false]
        exact congrArg (List.cons _) (ih l2)

theorem should_skip_subject_mode (id filt m1 m2 s : String) :
    should_skip_subject ⟨id, filt, m1⟩ s = should_skip_subject ⟨id, filt, m2⟩ s := rfl

theorem build_rows_mode (id filt m1 m2 : String) (env : Env) :
    ∀ l : List String,
      build_rows ⟨id, filt, m1⟩ env l = build_rows ⟨id, filt, m2⟩ env l := by
  intro l
  induction l with
  | nil => rfl
  | cons a t ih =>
    rcases hma : env.getMsg a with _ | parsed
    · simp only [build_rows, hma]
      exact ih
    · simp only [build_rows, hma, should_skip_subject_mode id filt m1 m2]
      by_cases hs : should_skip_subject ⟨id, filt, m2⟩ parsed.subject = true
      · simp only [hs, if_true]
        exact ih
      · rw [Bool.not_eq_true] at hs
        simp only [hs, Bool.false_eq_true, if_false]
        exact congrArg (List.cons _) ih

theorem main_eq_run_core {cfg : Config} {st0 : SyncState} {env : Env} {u : List String}
    (hinv : spreadsheet_id_invalid cfg = false) (hauth : env.authOk = true)
    (hu : env.listUnread = some u) :
    main cfg st0 env = run_core cfg st0 env (cfg.STATE_PERSISTENCE_MODE == "sheet") u := by
  simp [main, hinv, hauth, hu]

theorem run_core_of_empty {cfg : Config} {st0 : SyncState} {env : Env} {warned : Bool}
    {u : List String} (h : build_rows cfg env (candidates st0 u) = []) :
    run_core cfg st0 env warned u =
      { exitCode := 0, warnedSheetMode := warned, authAttempted := true,
        batch := none, markCalls := [], markFailures := [],
        saved := some { processed_ids := st0.processed_ids, last_run := some env.now } } := by
  simp [run_core, h]

theorem run_core_of_commit {cfg : Config} {st0 : SyncState} {env : Env} {warned : Bool}
    {u : List String} (hne : build_rows cfg env (candidates st0 u) ≠ [])
    (happ : env.appendOk = true) :
    run_core cfg st0 env warned u =
      { exitCode := 0, warnedSheetMode := warned, authAttempted := true,
        batch := some (build_rows cfg env (candidates st0 u)),
        markCalls := (build_rows cfg env (candidates st0 u)).map Prod.fst,
        markFailures := ((build_rows cfg env (candidates st0 u)).map Prod.fst).filter
          (fun i => !(env.markOk i)),
        saved := some
          { processed_ids := st0.processed_ids ++
              ((build_rows cfg env (candidates st0 u)).map Prod.fst).filter
                (fun i => !(st0.processed_ids.contains i)),
            last_run := some env.now } } := by
  simp [run_core, hne, happ]

theorem run_core_of_append_fail {cfg : Config} {st0 : SyncState} {env : Env} {warned : Bool}
    {u : List String} (hne : build_rows cfg env (candidates st0 u) ≠ [])
    (happ : env.appendOk = false) :
    run_core cfg st0 env warned u =
      { exitCode := 1, warnedSheetMode := warned, authAttempted := true,
        batch := some (build_rows cfg env (candidates st0 u)),
        markCalls := [], markFailures := [], saved := none } := by
  simp [run_core, hne, happ]

theorem main_batch_inv {cfg : Config} {st0 : SyncState} {env : Env}
    {b : List (String × Row)} (h : (main cfg st0 env).batch = some b) :
    spreadsheet_id_invalid cfg = false ∧ env.authOk = true ∧
      ∃ u, env.listUnread = some u ∧
        b = build_rows cfg env (candidates st0 u) ∧ b ≠ [] := by
  by_cases hinv : spreadsheet_id_invalid cfg = true
  · simp [main, hinv] at h
  · rw [Bool.not_eq_true] at hinv
    by_cases hauth : env.authOk = true
    · rcases hu : env.listUnread with _ | u
      · simp [main, hinv, hauth, hu] at h
      · refine ⟨hinv, hauth, u, rfl, ?_⟩
        rw [main_eq_run_core hinv hauth hu] at h
        by_cases hp : build_rows cfg env (candidates st0 u) = []
        · rw [run_core_of_empty hp] at h
          cases h
        · by_cases happ : env.appendOk = true
          · rw [run_core_of_commit hp happ] at h
            cases h
            exact ⟨rfl, hp⟩
          · rw [Bool.not_eq_true] at happ
            rw [run_core_of_append_fail hp happ] at h
            cases h
            exact ⟨rfl, hp⟩
    · rw [Bool.not_eq_true] at hauth
      simp [main, hinv, hauth] at h

theorem main_saved_inv {cfg : Config} {st0 : SyncState} {env : Env}
    {st1 : SyncState} (h : (main cfg st0 env).saved = some st1) :
    spreadsheet_id_invalid cfg = false ∧ env.authOk = true ∧
      ∃ u, env.listUnread = some u ∧
        ((build_rows cfg env (candidates st0 u) = [] ∧
            st1 = { processed_ids := st0.processed_ids, last_run := some env.now }) ∨
         (build_rows cfg env (candidates st0 u) ≠ [] ∧ env.appendOk = true ∧
            st1 = { processed_ids := st0.processed_ids ++
                      ((build_rows cfg env (candidates st0 u)).map Prod.fst).filter
                        (fun i => !(st0.processed_ids.contains i)),
                    last_run := some env.now })) := by
  by_cases hinv : spreadsheet_id_invalid cfg = true
  · simp [main, hinv] at h
  · rw [Bool.not_eq_true] at hinv
    by_cases hauth : env.authOk = true
    · rcases hu : env.listUnread with _ | u
      · simp [main, hinv, hauth, hu] at h
      · refine ⟨hinv, hauth, u, rfl, ?_⟩
        rw [main_eq_run_core hinv hauth hu] at h
        by_cases hp : build_rows cfg env (candidates st0 u) = []
        · rw [run_core_of_empty hp] at h
          cases h
          exact Or.inl ⟨hp, rfl⟩
        · by_cases happ : env.appendOk = true
          · rw [run_core_of_commit hp happ] at h
            cases h
            exact Or.inr ⟨hp, happ, rfl⟩
          · rw [Bool.not_eq_true] at happ
            rw [run_core_of_append_fail hp happ] at h
            cases h
    · rw [Bool.not_eq_true] at hauth
      simp [main, hinv, hauth] at h

theorem main_markCalls_sub {cfg : Config} {st0 : SyncState} {env : Env} {x : String}
    (hx : x ∈ (main cfg st0 env).markCalls) :
    ∃ b, (main cfg st0 env).batch = some b ∧ x ∈ b.map Prod.fst := by
  by_cases hinv : spreadsheet_id_invalid cfg = true
  · simp [main, hinv] at hx
  · rw [Bool.not_eq_true] at hinv
    by_cases hauth : env.authOk = true
    · rcases hu : env.listUnread with _ | u
      · simp [main, hinv, hauth, hu] at hx
      · rw [main_eq_run_core hinv hauth hu] at hx ⊢
        by_cases hp : build_rows cfg env (candidates st0 u) = []
        · rw [run_core_of_empty hp] at hx
          cases hx
        · by_cases happ : env.appendOk = true
          · rw [run_core_of_commit hp happ] at hx ⊢
            exact ⟨build_rows cfg env (candidates st0 u), rfl, hx⟩
          · rw [Bool.not_eq_true] at happ
            rw [run_core_of_append_fail hp happ] at hx
            cases hx
    · rw [Bool.not_eq_true] at hauth
      simp [main, hinv, hauth] at hx

theorem classify_parts_fst :
    ∀ l : List (String × String),
      (classify_parts l).1 =
        (l.filter (fun t => startsWithStr "text/plain" t.1)).map Prod.snd := by
  intro l
  induction l with
  | nil => rfl
  | cons a t ih =>
    rcases a with ⟨m, c⟩
    by_cases hp : startsWithStr "text/plain" m = true
    · simp [classify_parts, hp, ih]
    · rw [Bool.not_eq_true] at hp
      by_cases hh : startsWithStr "text/html" m = true
      · simp [classify_parts, hp, hh, ih]
      · rw [Bool.not_eq_true] at hh
        simp [classify_parts, hp, hh, ih]

theorem classify_parts_snd :
    ∀ l : List (String × String),
      (classify_parts l).2 =
        (l.filter (fun t =>
          !(startsWithStr "text/plain" t.1) && startsWithStr "text/html" t.1)).map Prod.snd := by
  intro l
  induction l with
  | nil => rfl
  | cons a t ih =>
    rcases a with ⟨m, c⟩
    by_cases hp : startsWithStr "text/plain" m = true
    · simp [classify_parts, hp, ih]
    · rw [Bool.not_eq_true] at hp
      by_cases hh : startsWithStr "text/html" m = true
      · simp [classify_parts, hp, hh, ih]
      · rw [Bool.not_eq_true] at hh
        simp [classify_parts, hp, hh, ih]

theorem str_items_map (l : List String) : str_items (l.map Json.jstr) = l := by
  induction l with
  | nil => rfl
  | cons a t ih => simp [str_items, ih]

theorem all_strings_map (l : List String) : all_strings (l.map Json.jstr) = true := by
  induction l with
  | nil => rfl
  | cons a t ih => simp [all_strings, ih]

/-! ### Claim theorems -/

/-- C10: the configuration check (main.py line 64) returns exit code 1
before any side effect — no authentication attempt, no batch, no mark
calls, no saved state — exactly when the spreadsheet id is empty or
contains the placeholder substring "REPLACE_WITH"; for every other
identifier the check passes and the run proceeds to authentication. -/
theorem C10_config_check (cfg : Config) (st0 : SyncState) (env : Env) :
    (spreadsheet_id_invalid cfg = true →
       main cfg st0 env =
         { exitCode := 1, warnedSheetMode := false, authAttempted := false,
           batch := none, markCalls := [], markFailures := [], saved := none }) ∧
    (spreadsheet_id_invalid cfg = false → (main cfg st0 env).authAttempted = true) ∧
    (spreadsheet_id_invalid cfg = true ↔
       (cfg.SPREADSHEET_ID = "" ∨ strIn "REPLACE_WITH" cfg.SPREADSHEET_ID = true)) := by
  refine ⟨?_, ?_, ?_⟩
  · intro h
    simp [main, h]
  · intro h
    by_cases hauth : env.authOk = true
    · rcases hu : env.listUnread with _ | u
      · simp [main, h, hauth, hu]
      · rw [main_eq_run_core h hauth hu]
        by_cases hp : build_rows cfg env (candidates st0 u) = []
        · rw [run_core_of_empty hp]
        · by_cases happ : env.appendOk = true
          · rw [run_core_of_commit hp happ]
          · rw [Bool.not_eq_true] at happ
            rw [run_core_of_append_fail hp happ]
    · rw [Bool.not_eq_true] at hauth
      simp [main, h, hauth]
  · simp [spreadsheet_id_invalid, Bool.or_eq_true, beq_iff_eq]

theorem C10_config_check_witness :
    main cfg_bad_id st_empty envABC =
      { exitCode := 1, warnedSheetMode := false, authAttempted := false,
        batch := none, markCalls := [], markFailures := [], saved := none } ∧
    (main cfg_ok st_empty envABC).authAttempted = true :=
  ⟨(C10_config_check cfg_bad_id st_empty envABC).1 (by decide),
   (C10_config_check cfg_ok st_empty envABC).2.1 (by decide)⟩

/-- C7: `load_state` (main.py lines 40-47) returns the default empty state
both when no state file exists and when the stored content is unreadable
(e.g. invalid JSON); it is total (never raises), and a run from the state
it yields in either case is exactly a run from the empty state. -/
theorem C7_load_state_recovers :
    load_state .absent = default_state_json ∧
    load_state .unreadable = default_state_json ∧
    state_of_json default_state_json = { processed_ids := [], last_run := none } ∧
    (∀ cfg env,
      main cfg (state_of_json (load_state .absent)) env =
        main cfg { processed_ids := [], last_run := none } env ∧
      main cfg (state_of_json (load_state .unreadable)) env =
        main cfg { processed_ids := [], last_run := none } env) := by
  exact ⟨rfl, rfl, rfl, fun cfg env => ⟨rfl, rfl⟩⟩

/-- C8 counterexample: the state object `save_state` persists uses the keys
"processed_ids" and "last_run"; it has no key "processedIds" and no key
"lastRun" as the claim spells them. -/
theorem C8_counterexample :
    json_keys (encode_state st_empty) = ["processed_ids", "last_run"] ∧
    (json_keys (encode_state st_empty)).contains "processedIds" = false ∧
    (json_keys (encode_state st_empty)).contains "lastRun" = false :=
  ⟨rfl, by decide, by decide⟩

/-- C8 (amended): the persisted state file is a JSON object of the shape
with keys "processed_ids" (array of strings) and "last_run" (string or
null) — the snake_case spellings the code writes — and for every state,
saving then loading yields identical processed-id membership and the same
last run. -/
theorem C8_state_roundtrip (st : SyncState) :
    state_json_shape (encode_state st) = true ∧
    load_state (.stored (encode_state st)) = encode_state st ∧
    (∀ x, x ∈ (state_of_json (load_state (.stored (encode_state st)))).processed_ids ↔
       x ∈ st.processed_ids) ∧
    (state_of_json (load_state (.stored (encode_state st)))).last_run = st.last_run := by
  refine ⟨?_, rfl, ?_, ?_⟩
  · rcases st with ⟨ids, lr⟩
    rcases lr with _ | s <;>
      simp [encode_state, state_json_shape, is_string_array, all_strings_map, null_or_string]
  · intro x
    simp [load_state, encode_state, state_of_json, json_lookup, str_items_map]
  · rcases st with ⟨ids, lr⟩
    rcases lr with _ | s <;>
      simp [load_state, encode_state, state_of_json, json_lookup, str_items_map]

/-- C9 counterexample: with `STATE_PERSISTENCE_MODE = "s3"` — a value other
than "local" — the run logs no mode warning (the warning of main.py lines
71-75 fires only for "sheet") even though the run completes. -/
theorem C9_counterexample :
    (cfg_mode_s3.STATE_PERSISTENCE_MODE == "local") = false ∧
    (main cfg_mode_s3 st_empty envABC).warnedSheetMode = false ∧
    (main cfg_mode_s3 st_empty envABC).exitCode = 0 := by
  refine ⟨by decide, by decide, by decide⟩

/-- C9 (amended): every value of `STATE_PERSISTENCE_MODE` other than
"local" falls back to local state persistence — the run behaves identically
to mode "local" in every observable respect except the warning flag — but
the warning is logged only for the value "sheet" (after the config check
passes), not for every non-"local" value. -/
theorem C9_mode_fallback (st0 : SyncState) (env : Env) (id filt m : String) :
    main ⟨id, filt, m⟩ st0 env =
      { main ⟨id, filt, "local"⟩ st0 env with
        warnedSheetMode :=
          !(spreadsheet_id_invalid ⟨id, filt, m⟩) && (m == "sheet") } := by
  have hinv2 : spreadsheet_id_invalid ⟨id, filt, "local"⟩ =
      spreadsheet_id_invalid ⟨id, filt, m⟩ := rfl
  by_cases hinv : spreadsheet_id_invalid (⟨id, filt, m⟩ : Config) = true
  · simp [main, hinv, hinv2.trans hinv]
  · rw [Bool.not_eq_true] at hinv
    have hinvL : spreadsheet_id_invalid (⟨id, filt, "local"⟩ : Config) = false :=
      hinv2.trans hinv
    by_cases hauth : env.authOk = true
    · rcases hu : env.listUnread with _ | u
      · simp [main, hinv, hinvL, hauth, hu]
      · rw [main_eq_run_core hinv hauth hu, main_eq_run_core hinvL hauth hu]
        have hbr : build_rows ⟨id, filt, "local"⟩ env (candidates st0 u) =
            build_rows ⟨id, filt, m⟩ env (candidates st0 u) :=
          build_rows_mode id filt "local" m env (candidates st0 u)
        by_cases hp : build_rows ⟨id, filt, m⟩ env (candidates st0 u) = []
        · rw [run_core_of_empty hp, run_core_of_empty (hbr.trans hp)]
          simp [hinv]
        · by_cases happ : env.appendOk = true
          · rw [run_core_of_commit hp happ, run_core_of_commit (hbr ▸ hp) happ]
            simp [hinv, hbr]
          · rw [Bool.not_eq_true] at happ
            rw [run_core_of_append_fail hp happ, run_core_of_append_fail (hbr ▸ hp) happ]
            simp [hinv, hbr]
    · rw [Bool.not_eq_true] at hauth
      simp [main, hinv, hinvL, hauth]

/-- C1: no duplicate commit and idempotence. Any id present in the loaded
`processed_ids` is never among the ids of a batch passed to `append_rows`;
and a second run, with the same environment (same unread list, same fetch
results, same filter) starting from the state the first run saved, passes
no batch to `append_rows`, marks nothing, and saves the same
`processed_ids` with only `last_run` (re)set. -/
theorem C1_no_duplicate_idempotent (cfg : Config) (st0 : SyncState) (env : Env) :
    (∀ id b, st0.processed_ids.contains id = true →
       (main cfg st0 env).batch = some b → (b.map Prod.fst).contains id = false) ∧
    (∀ st1, (main cfg st0 env).saved = some st1 →
       (main cfg st1 env).batch = none ∧
       (main cfg st1 env).markCalls = [] ∧
       (main cfg st1 env).saved =
         some { processed_ids := st1.processed_ids, last_run := some env.now }) := by
  constructor
  · intro id b hc hb
    rcases main_batch_inv hb with ⟨hinv, hauth, u, hu, hbe, hne⟩
    rw [contains_eq_false_iff]
    intro hmem
    subst hbe
    have hid : id ∈ candidates st0 u := build_rows_fst_mem hmem
    have := (List.mem_filter.mp hid).2
    rw [hc] at this
    cases this
  · intro st1 hs
    rcases main_saved_inv hs with ⟨hinv, hauth, u, hu, hcase⟩
    have hnil : build_rows cfg env (candidates st1 u) = [] := by
      rcases hcase with ⟨hp, hst⟩ | ⟨hne, happ, hst⟩
      · subst hst
        exact hp
      · subst hst
        apply build_rows_nil_of_dropped
        intro x hx
        rcases List.mem_filter.mp hx with ⟨hxu, hxb⟩
        have hxnot : x ∉ st0.processed_ids ++
            ((build_rows cfg env (candidates st0 u)).map Prod.fst).filter
              (fun i => !(st0.processed_ids.contains i)) := by
          rw [← contains_eq_false_iff]
          rcases hb : (st0.processed_ids ++ _).contains x with _ | _
          · rfl
          · rw [hb] at hxb
            cases hxb
        rw [List.mem_append] at hxnot
        push_neg at hxnot
        rcases hxnot with ⟨hx0, hxf⟩
        have hx0c : st0.processed_ids.contains x = false :=
          (contains_eq_false_iff _ _).mpr hx0
        have hxcand : x ∈ candidates st0 u :=
          List.mem_filter.mpr ⟨hxu, by rw [hx0c]; rfl⟩
        have hxbatch : x ∉ (build_rows cfg env (candidates st0 u)).map Prod.fst := by
          intro hxm
          exact hxf (List.mem_filter.mpr ⟨hxm, by rw [hx0c]; rfl⟩)
        exact dropped_of_not_mem_batch hxcand hxbatch
    rw [main_eq_run_core hinv hauth hu, run_core_of_empty hnil]
    exact ⟨rfl, rfl, rfl⟩

theorem C1_no_duplicate_idempotent_witness :
    (([("A", ["a@x", "SubA", "2024-01-01", "bodyA"]),
       ("C", ["c@x", "SubC", "2024-01-03", "bodyC"])].map Prod.fst).contains "B" = false) ∧
    (main cfg_ok stABC envABC).batch = none ∧
    (main cfg_ok stABC envABC).markCalls = [] ∧
    (main cfg_ok stABC envABC).saved =
      some { processed_ids := stABC.processed_ids, last_run := some "T1" } := by
  have h := C1_no_duplicate_idempotent cfg_ok stB envABC
  have h2 := h.2 stABC (by decide)
  exact ⟨h.1 "B" _ (by decide) (by decide), h2.1, h2.2.1, h2.2.2⟩

/-- C2: if `append_rows` fails (raises after its retry budget) for a
non-empty batch, the run returns exit code 1, `mark_as_read` is called for
no id of that batch, and nothing at all is persisted for this run —
`save_state` is never reached, so `processed_ids` and `last_run` on disk
stay what they were. -/
theorem C2_append_failure_aborts (cfg : Config) (st0 : SyncState) (env : Env)
    (b : List (String × Row)) (hb : (main cfg st0 env).batch = some b)
    (happ : env.appendOk = false) :
    (main cfg st0 env).exitCode = 1 ∧
    (main cfg st0 env).markCalls = [] ∧
    (main cfg st0 env).markFailures = [] ∧
    (main cfg st0 env).saved = none := by
  rcases main_batch_inv hb with ⟨hinv, hauth, u, hu, hbe, hne⟩
  rw [main_eq_run_core hinv hauth hu, run_core_of_append_fail (hbe ▸ hne) happ]
  exact ⟨rfl, rfl, rfl, rfl⟩

theorem C2_append_failure_aborts_witness :
    (main cfg_ok st_empty env_append_fail).exitCode = 1 ∧
    (main cfg_ok st_empty env_append_fail).markCalls = [] ∧
    (main cfg_ok st_empty env_append_fail).markFailures = [] ∧
    (main cfg_ok st_empty env_append_fail).saved = none :=
  C2_append_failure_aborts cfg_ok st_empty env_append_fail
    [("E", ["e@x", "SubE", "2024-01-05", "bodyE"])] (by decide) (by decide)

/-- C3: after a successful append of a batch containing id X, a failing
`mark_as_read` call for X does not stop the other ids from being marked
(every batch id is attempted), X still ends up in the saved
`processed_ids`, and the run exits 0. -/
theorem C3_mark_failure_best_effort (cfg : Config) (st0 : SyncState) (env : Env)
    (b : List (String × Row)) (X : String)
    (hb : (main cfg st0 env).batch = some b) (hX : X ∈ b.map Prod.fst)
    (happ : env.appendOk = true) (hmark : env.markOk X = false) :
    (main cfg st0 env).exitCode = 0 ∧
    (main cfg st0 env).markCalls = b.map Prod.fst ∧
    X ∈ (main cfg st0 env).markFailures ∧
    ∃ st1, (main cfg st0 env).saved = some st1 ∧
      st1.processed_ids.contains X = true := by
  rcases main_batch_inv hb with ⟨hinv, hauth, u, hu, hbe, hne⟩
  subst hbe
  rw [main_eq_run_core hinv hauth hu, run_core_of_commit hne happ]
  refine ⟨rfl, rfl, ?_, ?_⟩
  · exact List.mem_filter.mpr ⟨hX, by rw [hmark]; rfl⟩
  · refine ⟨_, rfl, ?_⟩
    rw [contains_iff_mem]
    rcases hin : st0.processed_ids.contains X with _ | _
    · exact List.mem_append_right _ (List.mem_filter.mpr ⟨hX, by rw [hin]; rfl⟩)
    · exact List.mem_append_left _ ((contains_iff_mem _ _).mp hin)

theorem C3_mark_failure_best_effort_witness :
    (main cfg_ok st_empty env_mark_fail).exitCode = 0 ∧
    (main cfg_ok st_empty env_mark_fail).markCalls = ["A", "B", "C"] ∧
    "A" ∈ (main cfg_ok st_empty env_mark_fail).markFailures ∧
    ∃ st1, (main cfg_ok st_empty env_mark_fail).saved = some st1 ∧
      st1.processed_ids.contains "A" = true := by
  have h := C3_mark_failure_best_effort cfg_ok st_empty env_mark_fail
    [("A", ["a@x", "SubA", "2024-01-01", "bodyA"]),
     ("B", ["b@x", "SubB", "2024-01-02", "bodyB"]),
     ("C", ["c@x", "SubC", "2024-01-03", "bodyC"])] "A"
    (by decide) (by decide) (by decide) (by decide)
  exact ⟨h.1, h.2.1, h.2.2.1, h.2.2.2⟩

/-- C4: the candidate list is the unread list minus the processed set as an
order-preserving membership filter; the committed batch preserves that
order (its id sequence is a sublist of the candidate list); and in the
concrete scenario unread = [A,B,C], processed = {B}, no filter, successful
append and mark, the committed batch is [A,C] in that order and the final
processed ids have membership {A,B,C}. -/
theorem C4_dedup_preserves_order (cfg : Config) (st0 : SyncState) (env : Env)
    (u : List String) (hu : env.listUnread = some u) :
    (candidates st0 u).Sublist u ∧
    (∀ x, x ∈ candidates st0 u ↔ (x ∈ u ∧ st0.processed_ids.contains x = false)) ∧
    (∀ b, (main cfg st0 env).batch = some b →
       (b.map Prod.fst).Sublist (candidates st0 u)) ∧
    ((main cfg_ok stB envABC).batch =
        some [("A", ["a@x", "SubA", "2024-01-01", "bodyA"]),
              ("C", ["c@x", "SubC", "2024-01-03", "bodyC"])] ∧
     (main cfg_ok stB envABC).markCalls = ["A", "C"] ∧
     (main cfg_ok stB envABC).saved = some stABC ∧
     (∀ x, x ∈ stABC.processed_ids ↔ (x = "A" ∨ x = "B" ∨ x = "C"))) := by
  refine ⟨List.filter_sublist u, ?_, ?_, by decide, by decide, by decide, ?_⟩
  · intro x
    rw [candidates, List.mem_filter]
    constructor
    · rintro ⟨hxu, hxb⟩
      refine ⟨hxu, ?_⟩
      rcases hc : st0.processed_ids.contains x with _ | _
      · rfl
      · rw [hc] at hxb
        cases hxb
    · rintro ⟨hxu, hc⟩
      exact ⟨hxu, by rw [hc]; rfl⟩
  · intro b hb
    rcases main_batch_inv hb with ⟨hinv, hauth, u2, hu2, hbe, hne⟩
    rw [hu] at hu2
    cases hu2
    subst hbe
    exact build_rows_fst_sublist cfg env (candidates st0 u)
  · intro x
    show x ∈ ["B", "A", "C"] ↔ _
    simp only [List.mem_cons, List.not_mem_nil, or_false]
    tauto

theorem C4_dedup_preserves_order_witness :
    (candidates stB ["A", "B", "C"]).Sublist ["A", "B", "C"] ∧
    (main cfg_ok stB envABC).batch =
      some [("A", ["a@x", "SubA", "2024-01-01", "bodyA"]),
            ("C", ["c@x", "SubC", "2024-01-03", "bodyC"])] := by
  have h := C4_dedup_preserves_order cfg_ok stB envABC ["A", "B", "C"] (by decide)
  exact ⟨h.1, h.2.2.2.1⟩

/-- C5: per-candidate isolation and filter semantics. A fetch/parse error
for one candidate removes only that id from the walk (the remaining
candidates are processed; the run is not aborted); a record survives the
subject filter iff the filter is unset or its lowered form occurs in the
lowered subject; and a candidate dropped for either reason appears in no
batch, is never marked, is absent from the saved processed ids, and is
re-offered as a candidate on a next run over the same unread list. -/
theorem C5_skip_continue_filter (cfg : Config) (env : Env) :
    (∀ (l1 l2 : List String) (mid : String), env.getMsg mid = none →
       build_rows cfg env (l1 ++ mid :: l2) = build_rows cfg env (l1 ++ l2)) ∧
    (∀ subject, should_skip_subject cfg subject = false ↔
       (cfg.SUBJECT_FILTER = "" ∨
         strIn (lowerStr cfg.SUBJECT_FILTER) (lowerStr subject) = true)) ∧
    (∀ (st0 : SyncState) (u : List String) (mid : String),
       env.listUnread = some u → mid ∈ u →
       st0.processed_ids.contains mid = false → dropped cfg env mid →
       ((∀ b, (main cfg st0 env).batch = some b →
           (b.map Prod.fst).contains mid = false) ∧
        (main cfg st0 env).markCalls.contains mid = false ∧
        (∀ st1, (main cfg st0 env).saved = some st1 →
           st1.processed_ids.contains mid = false ∧ mid ∈ candidates st1 u))) := by
  refine ⟨fun l1 l2 mid h => build_rows_skip_none h l1 l2, ?_, ?_⟩
  · intro subject
    by_cases hf : cfg.SUBJECT_FILTER = ""
    · simp [should_skip_subject, hf]
    · have hfb : (cfg.SUBJECT_FILTER == "") = false := by
        rcases hb : cfg.SUBJECT_FILTER == "" with _ | _
        · rfl
        · exact absurd (by simpa [beq_iff_eq] using hb) hf
      simp only [should_skip_subject, hfb, Bool.false_eq_true, if_false, hf, false_or]
      cases hstr : strIn (lowerStr cfg.SUBJECT_FILTER) (lowerStr subject) <;> simp [hstr]
  · intro st0 u mid hu hmemu hc hd
    refine ⟨?_, ?_, ?_⟩
    · intro b hb
      rcases main_batch_inv hb with ⟨hinv, hauth, u2, hu2, hbe, hne⟩
      subst hbe
      rw [contains_eq_false_iff]
      exact not_mem_batch_of_dropped hd _
    · rw [contains_eq_false_iff]
      intro hx
      rcases main_markCalls_sub hx with ⟨b, hb, hxb⟩
      rcases main_batch_inv hb with ⟨hinv, hauth, u2, hu2, hbe, hne⟩
      subst hbe
      exact not_mem_batch_of_dropped hd _ hxb
    · intro st1 hs
      rcases main_saved_inv hs with ⟨hinv, hauth, u2, hu2, hcase⟩
      rw [hu] at hu2
      cases hu2
      rcases hcase with ⟨hp, hst⟩ | ⟨hne, happ, hst⟩
      · subst hst
        refine ⟨hc, List.mem_filter.mpr ⟨hmemu, ?_⟩⟩
        show (!(st0.processed_ids.contains mid)) = true
        rw [hc]
        rfl
      · subst hst
        have hnotm : mid ∉ (build_rows cfg env (candidates st0 u)).map Prod.fst :=
          not_mem_batch_of_dropped hd _
        have hcont : (st0.processed_ids ++
            ((build_rows cfg env (candidates st0 u)).map Prod.fst).filter
              (fun i => !(st0.processed_ids.contains i))).contains mid = false := by
          rw [contains_eq_false_iff, List.mem_append]
          rintro (h0 | hfil)
          · rw [contains_eq_false_iff] at hc
            exact hc h0
          · exact hnotm (List.mem_filter.mp hfil).1
        refine ⟨hcont, List.mem_filter.mpr ⟨hmemu, ?_⟩⟩
        show (!((st0.processed_ids ++
            ((build_rows cfg env (candidates st0 u)).map Prod.fst).filter
              (fun i => !(st0.processed_ids.contains i))).contains mid)) = true
        rw [hcont]
        rfl

theorem C5_skip_continue_filter_witness :
    (build_rows cfg_invoice env_drop ([] ++ "X" :: ["Y"]) =
       build_rows cfg_invoice env_drop ([] ++ ["Y"])) ∧
    (should_skip_subject cfg_invoice "Lunch" = false ↔
       (cfg_invoice.SUBJECT_FILTER = "" ∨
         strIn (lowerStr cfg_invoice.SUBJECT_FILTER) (lowerStr "Lunch") = true)) ∧
    (main cfg_invoice st_empty env_drop).markCalls.contains "X" = false ∧
    ((⟨[], some "T3"⟩ : SyncState).processed_ids.contains "X" = false ∧
       "X" ∈ candidates ⟨[], some "T3"⟩ ["X", "Y"]) := by
  have h := C5_skip_continue_filter cfg_invoice env_drop
  have h3 := h.2.2 st_empty ["X", "Y"] "X" (by decide) (by decide) (by decide)
    (Or.inl (by decide))
  exact ⟨h.1 [] ["Y"] "X" (by decide), h.2.1 "Lunch", h3.2.1,
    h3.2.2 ⟨[], some "T3"⟩ (by decide)⟩

/-- C6: body extraction. For a multipart payload, the plain and html
content lists collect the sub-parts' contents by mime tag in source order;
the body is the non-empty plain texts joined by a blank line whenever any
plain-text part exists; html contents are used (each passed through the
HTML-to-text conversion) only when no plain-text part exists, again joined
by a blank line in source order; with neither kind the body is empty. For
a non-multipart payload the body is the decoded (and for plain text,
stripped) payload text for `text/plain` and `text/html` mime types and
empty otherwise; and `parse_message` takes its body from this extraction. -/
theorem C6_body_extraction (decode : Option String → String) (h2t : String → String) :
    (∀ (mime : String) (data : Option String) (p : Payload) (ps : List Payload),
      plain_texts decode h2t (p :: ps) =
        ((extract_parts decode h2t (p :: ps)).filter
          (fun t => startsWithStr "text/plain" t.1)).map Prod.snd ∧
      html_texts decode h2t (p :: ps) =
        ((extract_parts decode h2t (p :: ps)).filter
          (fun t => !(startsWithStr "text/plain" t.1) &&
            startsWithStr "text/html" t.1)).map Prod.snd ∧
      (plain_texts decode h2t (p :: ps) ≠ [] →
        extract_body_from_payload decode h2t (.node mime data (p :: ps)) =
          String.intercalate "\n\n"
            ((plain_texts decode h2t (p :: ps)).filter (fun s => !(s == "")))) ∧
      (plain_texts decode h2t (p :: ps) = [] → html_texts decode h2t (p :: ps) ≠ [] →
        extract_body_from_payload decode h2t (.node mime data (p :: ps)) =
          String.intercalate "\n\n"
            (((html_texts decode h2t (p :: ps)).filter (fun s => !(s == ""))).map h2t)) ∧
      (plain_texts decode h2t (p :: ps) = [] → html_texts decode h2t (p :: ps) = [] →
        extract_body_from_payload decode h2t (.node mime data (p :: ps)) = "")) ∧
    (∀ (mime : String) (data : Option String),
      (startsWithStr "text/plain" mime = true →
        extract_body_from_payload decode h2t (.node mime data []) =
          stripStr (decode data)) ∧
      (startsWithStr "text/plain" mime = false → startsWithStr "text/html" mime = true →
        extract_body_from_payload decode h2t (.node mime data []) = h2t (decode data)) ∧
      (startsWithStr "text/plain" mime = false → startsWithStr "text/html" mime = false →
        extract_body_from_payload decode h2t (.node mime data []) = "")) ∧
    (∀ (parse_date : String → Option String) (msg : GmailMessage),
      (parse_message decode h2t parse_date msg).body =
        extract_body_from_payload decode h2t msg.payload) := by
  refine ⟨?_, ?_, fun _ _ => rfl⟩
  · intro mime data p ps
    refine ⟨classify_parts_fst _, classify_parts_snd _, ?_, ?_, ?_⟩
    · intro ht
      rw [plain_texts] at ht
      simp only [extract_body_from_payload]
      rw [if_neg ht]
      rw [plain_texts]
    · intro ht hh
      rw [plain_texts] at ht
      rw [html_texts] at hh
      simp only [extract_body_from_payload]
      rw [if_pos ht, if_neg hh]
      rw [html_texts]
    · intro ht hh
      rw [plain_texts] at ht
      rw [html_texts] at hh
      simp only [extract_body_from_payload]
      rw [if_pos ht, if_pos hh]
  · intro mime data
    refine ⟨?_, ?_, ?_⟩
    · intro hp
      simp only [extract_body_from_payload]
      rw [if_pos hp]
    · intro hp hh
      simp only [extract_body_from_payload]
      rw [if_neg (by rw [hp]; exact Bool.false_ne_true), if_pos hh]
    · intro hp hh
      simp only [extract_body_from_payload]
      rw [if_neg (by rw [hp]; exact Bool.false_ne_true),
        if_neg (by rw [hh]; exact Bool.false_ne_true)]

theorem C6_body_extraction_witness :
    (plain_texts dec_getD h2t_tag
        [.node "text/html" (some "H1") [],
         .node "text/plain" (some "P1") [],
         .node "text/plain" (some "P2") []] =
      ((extract_parts dec_getD h2t_tag
          [.node "text/html" (some "H1") [],
           .node "text/plain" (some "P1") [],
           .node "text/plain" (some "P2") []]).filter
        (fun t => startsWithStr "text/plain" t.1)).map Prod.snd) ∧
    extract_body_from_payload dec_getD h2t_tag payload_mixed = "P1\n\nP2" ∧
    extract_body_from_payload dec_getD h2t_tag payload_html_only = "T:T:H1" ∧
    extract_body_from_payload dec_getD h2t_tag (.node "text/plain" (some " x ") []) =
      stripStr (dec_getD (some " x ")) ∧
    (parse_message dec_getD h2t_tag pd_none message_mixed).body =
      extract_body_from_payload dec_getD h2t_tag message_mixed.payload := by
  have h := C6_body_extraction dec_getD h2t_tag
  have hm := h.1 "multipart/alternative" none (.node "text/html" (some "H1") [])
    [.node "text/plain" (some "P1") [], .node "text/plain" (some "P2") []]
  have hh := h.1 "multipart/mixed" none (.node "text/html" (some "H1") []) []
  refine ⟨hm.1, ?_, ?_, h.2.1 "text/plain" (some " x ") |>.1 (by decide),
    h.2.2 pd_none message_mixed⟩
  · have := hm.2.2.1 (by decide)
    calc extract_body_from_payload dec_getD h2t_tag payload_mixed
        = String.intercalate "\n\n"
            ((plain_texts dec_getD h2t_tag
              [.node "text/html" (some "H1") [],
               .node "text/plain" (some "P1") [],
               .node "text/plain" (some "P2") []]).filter (fun s => !(s == ""))) := this
      _ = "P1\n\nP2" := by decide
  · have := hh.2.2.2.1 (by decide) (by decide)
    calc extract_body_from_payload dec_getD h2t_tag payload_html_only
        = String.intercalate "\n\n"
            (((html_texts dec_getD h2t_tag
              [.node "text/html" (some "H1") []]).filter (fun s => !(s == ""))).map h2t_tag) :=
          this
      _ = "T:T:H1" := by decide

end GmailSync
